import Mathlib

/-!
Verification of the fire_midi_macro_runner repository.

Shallow embedding of the configuration-driven macro dispatch engine:
`macro_runner.py` (MacroRunner: parse_color, build_control_macros,
load_configuration, reload_configuration, get_color_map, handle_message),
`macros.py` (sendkey prefix routing), and `fire_code.py` (the color codec
color_to_rgb / rgb_to_color / color_to_fire_color, set_pad_color and the
pad-clearing loop of init_port).

JSON documents are modelled by `JValue` (floats are not modelled: no claim
involves them; Python `bool` is modelled separately because `isinstance(b, int)`
holds for booleans).  Python exceptions escaping a function are modelled with
`Except PyExc`.  Python dictionaries are ordered association lists with
update-in-place assignment semantics (`dictInsert`).
-/

/-- A Python exception that escapes a modelled function. -/
inductive PyExc where
  | valueError
  | attributeError
  | keyError
deriving DecidableEq, Repr

/-- A JSON-shaped Python value as produced by json.load.  Floats are not
modelled (no claim involves them). -/
inductive JValue where
  | null
  | bool (b : Bool)
  | int (n : Int)
  | str (s : String)
  | arr (xs : List JValue)
  | obj (fields : List (String × JValue))
deriving Repr

/-- Python truthiness of a JValue: None, False, 0, "", [], {} are falsy. -/
def truthy : JValue → Bool
  | .null => false
  | .bool b => b
  | .int n => n != 0
  | .str s => !s.isEmpty
  | .arr xs => !xs.isEmpty
  | .obj fields => !fields.isEmpty

/-- Python `d.get(k)` on a dict with string keys: first matching field. -/
def jget (fields : List (String × JValue)) (k : String) : Option JValue :=
  (fields.find? (fun p => p.1 == k)).map (fun p => p.2)

/-- Python `d[k] = v` on a dict with integer keys: update in place when the
key is present, append otherwise. -/
def dictInsert {α : Type} (d : List (Int × α)) (k : Int) (v : α) : List (Int × α) :=
  if d.any (fun p => p.1 == k) then
    d.map (fun p => if p.1 == k then (k, v) else p)
  else
    d ++ [(k, v)]

/-- Python `d[k]` read and `k in d` on a dict with integer keys. -/
def dictLookup {α : Type} (d : List (Int × α)) (k : Int) : Option α :=
  (d.find? (fun p => p.1 == k)).map (fun p => p.2)

/-- Python default str.strip whitespace (ASCII; Unicode whitespace beyond
ASCII is not modelled). -/
def pyIsSpace (c : Char) : Bool :=
  c == ' ' || c == '\t' || c == '\n' || c == '\r' || c == '\x0b' || c == '\x0c'

/-- Python str.strip(): drop leading and trailing whitespace. -/
def pyStripChars (cs : List Char) : List Char :=
  ((cs.dropWhile pyIsSpace).reverse.dropWhile pyIsSpace).reverse

/-- Python str.lower() on one character (ASCII; Unicode case mapping is not
modelled). -/
def pyLowerChar (c : Char) : Char :=
  if 'A' ≤ c && c ≤ 'Z' then Char.ofNat (c.toNat + 32) else c

/-- Python str.startswith. -/
def pyStartswith (s p : String) : Bool :=
  p.toList.isPrefixOf s.toList

/-- One hexadecimal digit, as accepted by Python int(s, 16). -/
def isHexDigitChar (c : Char) : Bool :=
  c.isDigit || ('a' ≤ c && c ≤ 'f') || ('A' ≤ c && c ≤ 'F')

/-- Value of one hexadecimal digit. -/
def hexVal (c : Char) : Nat :=
  if c.isDigit then c.toNat - '0'.toNat
  else if 'a' ≤ c then c.toNat - 'a'.toNat + 10
  else c.toNat - 'A'.toNat + 10

/-- A nonempty run of hex digits, most significant first. -/
def parseHexRun (cs : List Char) : Option Nat :=
  if cs.isEmpty || !cs.all isHexDigitChar then none
  else some (cs.foldl (fun a c => a * 16 + hexVal c) 0)

/-- Python `int(s, 16)` on the characters of s: optional surrounding
whitespace, optional sign, optional 0x/0X prefix, then hex digits.
(Digit-group underscores of Python numeric literals are not modelled; no
claim involves them.) -/
def pyIntBase16 (cs : List Char) : Option Int :=
  let signed : Int × List Char :=
    match pyStripChars cs with
    | '-' :: rest => (-1, rest)
    | '+' :: rest => (1, rest)
    | rest => (1, rest)
  let digits : List Char :=
    match signed.2 with
    | '0' :: 'x' :: rest => rest
    | '0' :: 'X' :: rest => rest
    | rest => rest
  (parseHexRun digits).map (fun n => signed.1 * n)

/-- A nonempty run of decimal digits, most significant first. -/
def parseDecRun (cs : List Char) : Option Nat :=
  if cs.isEmpty || !cs.all Char.isDigit then none
  else some (cs.foldl (fun a c => a * 10 + (c.toNat - '0'.toNat)) 0)

/-- Python `int(s)` in base 10: optional surrounding whitespace, optional
sign, then decimal digits. -/
def pyIntBase10 (s : String) : Option Int :=
  match pyStripChars s.toList with
  | '-' :: cs => (parseDecRun cs).map (fun n => -(n : Int))
  | '+' :: cs => (parseDecRun cs).map (fun n => (n : Int))
  | cs => (parseDecRun cs).map (fun n => (n : Int))

/-- MacroRunner.parse_color (macro_runner.py lines 92-119).  None maps to
None; ints (including bools, since isinstance(True, int)) pass through;
strings are stripped, lowercased and parsed as hex (the 0x-prefixed branch
passes the whole string, which int(s, 16) accepts), raising ValueError when
int(s, 16) fails; every other type falls through to None. -/
def parse_color (value : JValue) : Except PyExc (Option Int) :=
  match value with
  | .null => .ok none
  | .bool b => .ok (some (if b then 1 else 0))
  | .int n => .ok (some n)
  | .str s =>
    let cs := (pyStripChars s.toList).map pyLowerChar
    let r :=
      match cs with
      | '0' :: 'x' :: _ => pyIntBase16 cs
      | '#' :: rest => pyIntBase16 rest
      | _ => pyIntBase16 cs
    match r with
    | some n => .ok (some n)
    | none => .error .valueError
  | .arr _ => .ok none
  | .obj _ => .ok none
/-- A diagnostic printed by build_control_macros when an entry is skipped. -/
inductive Diag where
  | invalidNote (controlStr : String)
  | invalidAction (controlStr : String)
  | invalidMapping (controlStr : String)
deriving DecidableEq, Repr

/-- The three dictionaries built by build_control_macros, plus the printed
diagnostics.  The callable stored in control_macros is
`lambda kc=action: macros.sendkey(kc)`; the closure is modelled by the
captured action string kc. -/
structure BuildResult where
  control_macros : List (Int × String)
  control_colors : List (Int × Option Int)
  control_actions : List (Int × String)
  diags : List Diag
deriving DecidableEq, Repr

/-- The three dictionary assignments at macro_runner.py lines 168-174: the
same note key receives a callable, an action text and a color. -/
def insert3 (acc : BuildResult) (note : Int) (action : String) (color : Option Int) :
    BuildResult :=
  { acc with
    control_macros := dictInsert acc.control_macros note action
    control_actions := dictInsert acc.control_actions note action
    control_colors := dictInsert acc.control_colors note color }

/-- One iteration of the build_control_macros loop (macro_runner.py lines
142-174) on the pair (control_str, entry).  Unparsable keys, entries that
are neither strings nor dicts, and dict entries without a string action are
skipped with a diagnostic; a truthy color value is parsed by parse_color,
whose ValueError propagates; a falsy or absent color falls back to
default_color. -/
def build_step (default_color : Option Int) (acc : BuildResult)
    (kv : String × JValue) : Except PyExc BuildResult :=
  match pyIntBase10 kv.1 with
  | none => .ok { acc with diags := acc.diags ++ [.invalidNote kv.1] }
  | some note =>
    match kv.2 with
    | .str action => .ok (insert3 acc note action default_color)
    | .obj e =>
      match jget e "action" with
      | some (.str action) =>
        if truthy ((jget e "color").getD .null) then
          match parse_color ((jget e "color").getD .null) with
          | .error ex => .error ex
          | .ok color_int => .ok (insert3 acc note action color_int)
        else .ok (insert3 acc note action default_color)
      | _ => .ok { acc with diags := acc.diags ++ [.invalidAction kv.1] }
    | _ => .ok { acc with diags := acc.diags ++ [.invalidMapping kv.1] }

/-- Left fold over the raw entries that stops at the first escaping
exception. -/
def foldBuild (default_color : Option Int) :
    BuildResult → List (String × JValue) → Except PyExc BuildResult
  | acc, [] => .ok acc
  | acc, kv :: rest =>
    match build_step default_color acc kv with
    | .error e => .error e
    | .ok acc2 => foldBuild default_color acc2 rest

/-- Resolution of the document-wide default color (macro_runner.py line
139): `self.parse_color(cfg.get("default_color", "0xFFFFFF"))`.  A non-dict
document has no .get, raising AttributeError. -/
def default_color_of (cfg : JValue) : Except PyExc (Option Int) :=
  match cfg with
  | .obj fields => parse_color ((jget fields "default_color").getD (.str "0xFFFFFF"))
  | _ => .error .attributeError

/-- The raw entry list iterated by the loop:
`cfg.get("control_macros", {})`, whose .items() raises AttributeError when
the field holds a non-dict value. -/
def raw_entries_of (cfg : JValue) : Except PyExc (List (String × JValue)) :=
  match cfg with
  | .obj fields =>
    match (jget fields "control_macros").getD (.obj []) with
    | .obj raw => .ok raw
    | _ => .error .attributeError
  | _ => .error .attributeError

/-- MacroRunner.build_control_macros (macro_runner.py lines 121-176). -/
def build_control_macros (cfg : JValue) : Except PyExc BuildResult :=
  match default_color_of cfg with
  | .error e => .error e
  | .ok default_color =>
    match raw_entries_of cfg with
    | .error e => .error e
    | .ok raw => foldBuild default_color ⟨[], [], [], []⟩ raw

/-- The mutable attributes of a MacroRunner instance (macro_runner.py
lines 44-54). -/
structure MacroRunnerState where
  midi_config_path : String
  macros_config_path : String
  preferred_config_path : String
  midi_cfg : JValue
  macro_cfg : JValue
  control_macros : List (Int × String)
  control_colors : List (Int × Option Int)
  control_actions : List (Int × String)

/-- The file system seen through load_json: `none` means the path is
missing, unreadable, or holds a document json.load rejects (all of which
load_json turns into {}); `some v` means the path parses to the document v.
os.path.exists is modelled as isSome. -/
def FS : Type := String → Option JValue

/-- MacroRunner.load_json (macro_runner.py lines 56-72): the parsed
document, or {} when the file is missing or unreadable. -/
def load_json (fs : FS) (path : String) : JValue :=
  (fs path).getD (.obj [])

/-- MacroRunner.load_configuration (macro_runner.py lines 178-218).
Reloads midi_cfg, selects the document — `if config_path:` is a Python
truthiness test, so None and the empty string both fall through to the
preferred/fallback selection — loads it into macro_cfg, fails when the
loaded document is falsy, and otherwise records the path and rebuilds the
three control maps.  A ValueError escaping build_control_macros
propagates. -/
def load_configuration (fs : FS) (config_path : Option String)
    (st : MacroRunnerState) : Except PyExc (Bool × MacroRunnerState) :=
  let st1 := { st with midi_cfg := load_json fs st.midi_config_path }
  let macro_config_path :=
    match config_path with
    | some p =>
      if !p.isEmpty then p
      else if (fs st1.preferred_config_path).isSome then st1.preferred_config_path
      else st1.macros_config_path
    | none =>
      if (fs st1.preferred_config_path).isSome then st1.preferred_config_path
      else st1.macros_config_path
  let mcfg := load_json fs macro_config_path
  let st2 := { st1 with macro_cfg := mcfg }
  if truthy mcfg then
    let st3 := { st2 with macros_config_path := macro_config_path }
    match build_control_macros mcfg with
    | .error e => .error e
    | .ok res =>
      .ok (true, { st3 with
        control_macros := res.control_macros
        control_colors := res.control_colors
        control_actions := res.control_actions })
  else
    .ok (false, st2)

/-- MacroRunner.reload_configuration (macro_runner.py lines 220-252):
snapshot the active mapping, try load_configuration, restore the snapshot
and report the old color map on failure, report the new color map on
success. -/
def reload_configuration (fs : FS) (config_path : String)
    (st : MacroRunnerState) :
    Except PyExc (Bool × List (Int × Option Int) × MacroRunnerState) :=
  let old_macro_cfg := st.macro_cfg
  let old_control_macros := st.control_macros
  let old_control_colors := st.control_colors
  let old_control_actions := st.control_actions
  match load_configuration fs (some config_path) st with
  | .error e => .error e
  | .ok (success, st1) =>
    if success then
      .ok (true, st1.control_colors, { st1 with macros_config_path := config_path })
    else
      .ok (false, old_control_colors,
        { st1 with
          macro_cfg := old_macro_cfg
          control_macros := old_control_macros
          control_colors := old_control_colors
          control_actions := old_control_actions })

/-- MacroRunner.get_color_map (macro_runner.py lines 254-261). -/
def get_color_map (st : MacroRunnerState) : List (Int × Option Int) :=
  st.control_colors

/-- A mido message as far as handle_message inspects it. -/
structure MidiMsg where
  type : String
  note : Int
  velocity : Nat

/-- The observable outcome of one handle_message call. -/
inductive DispatchResult where
  | noop
  | invoked (controlId : Int) (label : String) (action : String)
  | unused (controlId : Int)
deriving DecidableEq, Repr

/-- MacroRunner.handle_message (macro_runner.py lines 263-280): nothing
happens unless the message is a note_on with velocity > 0; a mapped note
prints the action label read from control_actions (a missing label would be
a KeyError) and calls the stored callable; an unmapped note prints an
UNUSED diagnostic. -/
def handle_message (st : MacroRunnerState) (msg : MidiMsg) :
    Except PyExc DispatchResult :=
  if msg.type == "note_on" && decide (msg.velocity > 0) then
    let control_id := msg.note
    match dictLookup st.control_macros control_id with
    | some action =>
      match dictLookup st.control_actions control_id with
      | some label => .ok (.invoked control_id label action)
      | none => .error .keyError
    | none => .ok (.unused control_id)
  else
    .ok .noop

/-- The external provider a sendkey call routes to. -/
inductive Route where
  | runProgram (target : String)
  | typeText (text : String)
  | playSound (path : String)
  | reloadConfig (path : String)
  | keyboardSend (key : String)
deriving DecidableEq, Repr

/-- macros.sendkey (macros.py lines 64-90): prefix classification in source
order RUN| / TYPE| / SOUND| / CONFIG|, each routing the payload after the
prefix; anything else goes to keyboard.send as a raw key combination. -/
def sendkey (key : String) : Route :=
  if pyStartswith key "RUN|" then .runProgram (key.drop 4)
  else if pyStartswith key "TYPE|" then .typeText (key.drop 5)
  else if pyStartswith key "SOUND|" then .playSound (key.drop 6)
  else if pyStartswith key "CONFIG|" then .reloadConfig (key.drop 7)
  else .keyboardSend key
/-- fire_code.py line 39: first valid pad index. -/
def PADSTART : Nat := 54

/-- fire_code.py line 40: last valid pad index accepted by set_pad_color. -/
def PADEND : Nat := 117

/-- fire_code.rgb_to_color (fire_code.py lines 80-98): clamp each component
to 0-255 and pack as 0xRRGGBB.  Components reaching this embedding are
nonnegative, so the Python max(0, ...) clamp is the identity and Nat
components suffice; only the min 255 clamp is observable. -/
def rgb_to_color (r g b : Nat) : Nat :=
  let r := max 0 (min 255 r)
  let g := max 0 (min 255 g)
  let b := max 0 (min 255 b)
  (r <<< 16) ||| (g <<< 8) ||| b

/-- fire_code.color_to_rgb (fire_code.py lines 100-115): extract the three
8-bit channels by mask and shift. -/
def color_to_rgb (color : Nat) : Nat × Nat × Nat :=
  ((color &&& 0xFF0000) >>> 16, (color &&& 0x00FF00) >>> 8, color &&& 0x0000FF)

/-- The per-channel rescaling `int(c / 256 * 128)` of
fire_code.color_to_fire_color (fire_code.py lines 134-136).  For the
channel values 0-255 produced by color_to_rgb the Python float expression
is exact (c/256 and *128 are scalings by powers of two), and int()
truncation of a nonnegative value is floor, so it equals c * 128 / 256 in
natural division. -/
def fire_scale (c : Nat) : Nat := c * 128 / 256

/-- fire_code.color_to_fire_color (fire_code.py lines 117-139): extract the
channels, rescale each to 0-127, recombine. -/
def color_to_fire_color (color : Nat) : Nat :=
  let c := color_to_rgb color
  rgb_to_color (fire_scale c.1) (fire_scale c.2.1) (fire_scale c.2.2)

/-- fire_code.set_pad_color (fire_code.py lines 184-205): pads outside
PADSTART..PADEND are silently ignored (none); otherwise the SysEx payload
[padIdx - PADSTART, r, g, b] of the rescaled color is sent. -/
def set_pad_color (padIdx : Nat) (color : Nat) : Option (List Nat) :=
  if padIdx < PADSTART || padIdx > PADEND then none
  else
    let idx := padIdx - PADSTART
    let padColor := color_to_fire_color color
    let c := color_to_rgb padColor
    some [idx, c.1, c.2.1, c.2.2]

/-- The pad indices cleared by the loop in fire_code.init_port (fire_code.py
lines 60-61): `for pad in range(PADSTART, PADEND): set_pad_color(pad, 0x000000)`,
i.e. the half-open interval [PADSTART, PADEND). -/
def init_cleared_pads : List Nat := List.range' PADSTART (PADEND - PADSTART)
/-- True when an Except value carries a result rather than an exception. -/
def exceptOk {ε α : Type} : Except ε α → Bool
  | .ok _ => true
  | .error _ => false

/-- A well-shaped configuration entry: a bare action string, or an object
with a string action whose color (when present and truthy) parses. -/
def validEntryB : JValue → Bool
  | .str _ => true
  | .obj e =>
    match jget e "action" with
    | some (.str _) =>
      let cv := (jget e "color").getD .null
      !truthy cv || exceptOk (parse_color cv)
    | _ => false
  | _ => false

/-- A valid configuration document: an object whose default_color resolves
without an exception and whose control_macros field (defaulting to {}) is
an object all of whose entries are well-shaped.  Keys are unconstrained. -/
def validDocB (cfg : JValue) : Bool :=
  match cfg with
  | .obj fields =>
    exceptOk (default_color_of cfg) &&
    (match (jget fields "control_macros").getD (.obj []) with
     | .obj raw => raw.all (fun kv => validEntryB kv.2)
     | _ => false)
  | _ => false

/-- Weaker than validEntryB: only demands that the color actually parsed
for this entry (a truthy color of an object entry that has a string
action) raises no exception; malformed shapes and actions are allowed
since the loop skips them before touching their color. -/
def entryColorOkB : JValue → Bool
  | .obj e =>
    match jget e "action" with
    | some (.str _) =>
      let cv := (jget e "color").getD .null
      !truthy cv || exceptOk (parse_color cv)
    | _ => true
  | _ => true

/-- Documents on which build_control_macros raises nothing: the default
color resolves, control_macros is an object (or absent), and every color
that is actually parsed parses. -/
def colorsParsableB (cfg : JValue) : Bool :=
  match cfg with
  | .obj fields =>
    exceptOk (default_color_of cfg) &&
    (match (jget fields "control_macros").getD (.obj []) with
     | .obj raw => raw.all (fun kv => entryColorOkB kv.2)
     | _ => false)
  | _ => false

/-- A concrete MacroRunner state used by witnesses: control 60 is mapped to
RUN|notepad with color 0x112233. -/
def exampleState : MacroRunnerState :=
  { midi_config_path := "midi_config.json"
    macros_config_path := "macros_config.json"
    preferred_config_path := "default_macros.json"
    midi_cfg := .obj []
    macro_cfg := .obj [("control_macros", .obj [("60", .str "RUN|notepad")])]
    control_macros := [(60, "RUN|notepad")]
    control_colors := [(60, some 0x112233)]
    control_actions := [(60, "RUN|notepad")] }

/-- A file system where only the preferred configuration document of
exampleState exists: the empty path and every other path are missing. -/
def exampleRedirectFS : FS :=
  fun path =>
    if path == "default_macros.json" then
      some (.obj [("control_macros", .obj [("61", .str "TYPE|hi")])])
    else none

/-- An entry the build loop accepts into the three dictionaries: a bare
action string, or an object whose action field is a string. -/
def entryAccepted : JValue → Bool
  | .str _ => true
  | .obj e =>
    match jget e "action" with
    | some (.str _) => true
    | _ => false
  | _ => false

/-- An object entry whose action field is missing or not a string — the
loop skips it with the missing/invalid-action diagnostic. -/
def objBadAction : JValue → Bool
  | .obj e =>
    match jget e "action" with
    | some (.str _) => false
    | _ => true
  | _ => false

/-- A value that is neither a string nor an object — the loop skips it
with the invalid-mapping diagnostic. -/
def nonEntry : JValue → Bool
  | .str _ => false
  | .obj _ => false
  | _ => true

/-- A concrete document exercising every degradation path of the build
loop: an unparsable key, an entry that is not a string or dict, a dict
entry without a string action, plus two accepted entries, with
default_color absent. -/
def exampleMalformedDoc : JValue :=
  .obj [("control_macros", .obj
    [("bad", .str "f"), ("60", .int 7), ("61", .obj [("x", .int 1)]),
     ("62", .obj [("action", .str "a"), ("color", .str "0x10")]),
     ("63", .str "g")])]

example :
    build_control_macros (.obj [("default_color", .str "#112233"),
      ("control_macros", .obj [("60", .str "RUN|notepad"),
        ("61", .obj [("action", .str "TYPE|hi"), ("color", .str "0xFF0000")])])]) =
    .ok ⟨[(60, "RUN|notepad"), (61, "TYPE|hi")],
         [(60, some 0x112233), (61, some 0xFF0000)],
         [(60, "RUN|notepad"), (61, "TYPE|hi")], []⟩ := rfl

example :
    build_control_macros (.obj [("default_color", .str "oops")]) =
    .error .valueError := rfl

example :
    build_control_macros (.obj [("control_macros",
      .obj [("abc", .str "f1"), ("60", .int 5), ("61", .obj [("color", .int 3)]),
            ("62", .obj [("action", .str "a"), ("color", .int 0)])])]) =
    .ok ⟨[(62, "a")], [(62, some 0xFFFFFF)], [(62, "a")],
         [.invalidNote "abc", .invalidMapping "60", .invalidAction "61"]⟩ := rfl

example : parse_color (.str "#112233") = .ok (some 0x112233) := rfl
example : parse_color (.str "oops") = .error .valueError := rfl
example : parse_color .null = .ok none := rfl
example : sendkey "TYPE|Hello" = .typeText "Hello" := rfl
example : sendkey "CONFIG|other.json" = .reloadConfig "other.json" := rfl
example : color_to_rgb 0x112233 = (0x11, 0x22, 0x33) := by decide
example : set_pad_color 117 0 = some [63, 0, 0, 0] := by decide
example : parse_color (.str "0xFF0000") = .ok (some 0xFF0000) := rfl
example : parse_color (.str " #0xAb ") = .ok (some 0xAB) := rfl
example : parse_color (.str "ff00") = .ok (some 0xFF00) := rfl
example : parse_color (.int (-5)) = .ok (some (-5)) := rfl
example : sendkey "RUN|notepad" = .runProgram "notepad" := rfl
example : sendkey "SOUND|./beep.wav" = .playSound "./beep.wav" := rfl
example : sendkey "ctrl+shift+p" = .keyboardSend "ctrl+shift+p" := rfl
example : color_to_fire_color 0xFFFFFF = 0x7F7F7F := by decide
example : init_cleared_pads.length = 63 := by decide
example : set_pad_color 118 0 = none := by decide

lemma and_mask_shift (N m n : Nat) :
    (N &&& ((2 ^ m - 1) <<< n)) >>> n = N / 2 ^ n % 2 ^ m := by
  rw [← Nat.shiftRight_eq_div_pow]
  apply Nat.eq_of_testBit_eq
  intro i
  simp only [Nat.testBit_shiftRight, Nat.testBit_and, Nat.testBit_shiftLeft,
    Nat.testBit_mod_two_pow, Nat.testBit_two_pow_sub_one]
  have h1 : n ≤ n + i := Nat.le_add_right n i
  have h2 : n + i - n = i := by omega
  simp [h1, h2, Bool.and_comm]

lemma and_ff (N : Nat) : N &&& 0xFF = N % 2 ^ 8 := by
  have h : (0xFF : Nat) = 2 ^ 8 - 1 := by norm_num
  rw [h, Nat.and_pow_two_sub_one_eq_mod]

lemma color_to_rgb_arith (N : Nat) :
    color_to_rgb N = (N / 2 ^ 16 % 2 ^ 8, N / 2 ^ 8 % 2 ^ 8, N % 2 ^ 8) := by
  have h16 : (0xFF0000 : Nat) = (2 ^ 8 - 1) <<< 16 := by
    rw [Nat.shiftLeft_eq]; norm_num
  have h8 : (0x00FF00 : Nat) = (2 ^ 8 - 1) <<< 8 := by
    rw [Nat.shiftLeft_eq]; norm_num
  unfold color_to_rgb
  rw [h16, h8, and_mask_shift, and_mask_shift, and_ff]

lemma rgb_to_color_arith (r g b : Nat) (hr : r ≤ 255) (hg : g ≤ 255)
    (hb : b ≤ 255) : rgb_to_color r g b = r * 65536 + g * 256 + b := by
  have cr : max 0 (min 255 r) = r := by omega
  have cg : max 0 (min 255 g) = g := by omega
  have cb : max 0 (min 255 b) = b := by omega
  have e1 : r <<< 16 = 2 ^ 16 * r := by rw [Nat.shiftLeft_eq]; ring
  have e2 : g <<< 8 = g * 2 ^ 8 := Nat.shiftLeft_eq g 8
  have h1 : (2 : Nat) ^ 16 * r ||| g * 2 ^ 8 = 2 ^ 16 * r + g * 2 ^ 8 :=
    (Nat.mul_add_lt_is_or (by omega) r).symm
  have h2 : (2 : Nat) ^ 16 * r + g * 2 ^ 8 = 2 ^ 8 * (2 ^ 8 * r + g) := by ring
  have h3 : (2 : Nat) ^ 8 * (2 ^ 8 * r + g) ||| b = 2 ^ 8 * (2 ^ 8 * r + g) + b :=
    (Nat.mul_add_lt_is_or (by omega) (2 ^ 8 * r + g)).symm
  unfold rgb_to_color
  simp only [cr, cg, cb]
  rw [e1, e2, h1, h2, h3]
  ring

lemma color_to_rgb_of_rgb_to_color (r g b : Nat) (hr : r ≤ 255) (hg : g ≤ 255)
    (hb : b ≤ 255) : color_to_rgb (rgb_to_color r g b) = (r, g, b) := by
  rw [rgb_to_color_arith r g b hr hg hb, color_to_rgb_arith]
  refine Prod.ext ?_ (Prod.ext ?_ ?_) <;> simp <;> omega

lemma fire_scale_eq_half (c : Nat) : fire_scale c = c / 2 := by
  unfold fire_scale; omega

lemma fire_scale_le (c : Nat) (h : c ≤ 255) : fire_scale c ≤ 127 := by
  rw [fire_scale_eq_half]; omega

lemma color_to_rgb_channels_le (N : Nat) :
    (color_to_rgb N).1 ≤ 255 ∧ (color_to_rgb N).2.1 ≤ 255 ∧
      (color_to_rgb N).2.2 ≤ 255 := by
  rw [color_to_rgb_arith]
  refine ⟨?_, ?_, ?_⟩ <;> simp <;> omega

lemma color_to_fire_color_channels (color : Nat) :
    color_to_rgb (color_to_fire_color color) =
      (fire_scale (color_to_rgb color).1, fire_scale (color_to_rgb color).2.1,
       fire_scale (color_to_rgb color).2.2) := by
  obtain ⟨h1, h2, h3⟩ := color_to_rgb_channels_le color
  unfold color_to_fire_color
  exact color_to_rgb_of_rgb_to_color _ _ _
    (le_trans (fire_scale_le _ h1) (by norm_num))
    (le_trans (fire_scale_le _ h2) (by norm_num))
    (le_trans (fire_scale_le _ h3) (by norm_num))

/-- C7: color_to_fire_color rescales each 8-bit channel c independently to
floor(c / 256 * 128) (the fire_scale of the channel) and recombines them:
extracting the channels of the result yields exactly the rescaled channels
of the input; in particular every channel of the output for 0xFFFFFF is
127. -/
theorem color_to_fire_color_rescales_each_channel (color : Nat) :
    color_to_rgb (color_to_fire_color color) =
      (fire_scale (color_to_rgb color).1, fire_scale (color_to_rgb color).2.1,
       fire_scale (color_to_rgb color).2.2) ∧
    color_to_rgb (color_to_fire_color 0xFFFFFF) = (127, 127, 127) :=
  ⟨color_to_fire_color_channels color, by decide⟩

/-- C8 counterexample: the claimed idempotence
color_to_fire_color (color_to_fire_color x) = color_to_fire_color x fails at
the concrete 24-bit color x = 0xFFFFFF: the left side is 0x3F3F3F while the
right side is 0x7F7F7F. -/
theorem color_to_fire_color_not_idempotent :
    color_to_fire_color (color_to_fire_color 0xFFFFFF) ≠
      color_to_fire_color 0xFFFFFF ∧
    color_to_fire_color (color_to_fire_color 0xFFFFFF) = 0x3F3F3F ∧
    color_to_fire_color 0xFFFFFF = 0x7F7F7F := by decide

/-- C8 amended: the Fire color scaling is not idempotent; every application
halves each channel again, so applying color_to_fire_color to an
already-scaled color returns it unchanged exactly when that scaled color is
already black (0) — repeated application stabilizes only at 0. -/
theorem color_to_fire_color_twice_eq_iff_black (x : Nat) :
    color_to_fire_color (color_to_fire_color x) = color_to_fire_color x ↔
      color_to_fire_color x = 0 := by
  constructor
  · intro h
    have hch := color_to_fire_color_channels (color_to_fire_color x)
    rw [h] at hch
    have h1 : fire_scale (color_to_rgb (color_to_fire_color x)).1 =
        (color_to_rgb (color_to_fire_color x)).1 := by
      have := congrArg Prod.fst hch; simpa using this.symm
    have h2 : fire_scale (color_to_rgb (color_to_fire_color x)).2.1 =
        (color_to_rgb (color_to_fire_color x)).2.1 := by
      have := congrArg (fun p => p.2.1) hch; simpa using this.symm
    have h3 : fire_scale (color_to_rgb (color_to_fire_color x)).2.2 =
        (color_to_rgb (color_to_fire_color x)).2.2 := by
      have := congrArg (fun p => p.2.2) hch; simpa using this.symm
    rw [fire_scale_eq_half] at h1 h2 h3
    have hz1 : (color_to_rgb (color_to_fire_color x)).1 = 0 := by omega
    have hz2 : (color_to_rgb (color_to_fire_color x)).2.1 = 0 := by omega
    have hz3 : (color_to_rgb (color_to_fire_color x)).2.2 = 0 := by omega
    obtain ⟨b1, b2, b3⟩ := color_to_rgb_channels_le x
    have hx : color_to_fire_color x =
        rgb_to_color (fire_scale (color_to_rgb x).1)
          (fire_scale (color_to_rgb x).2.1) (fire_scale (color_to_rgb x).2.2) := rfl
    have hc := color_to_fire_color_channels x
    rw [hx, rgb_to_color_arith _ _ _
      (le_trans (fire_scale_le _ b1) (by norm_num))
      (le_trans (fire_scale_le _ b2) (by norm_num))
      (le_trans (fire_scale_le _ b3) (by norm_num))]
    rw [hx] at hc hz1 hz2 hz3
    rw [hc] at hz1 hz2 hz3
    simp at hz1 hz2 hz3
    omega
  · intro h
    rw [h]
    decide

/-- C9 (code bug): the clearing loop of init_port iterates
range(PADSTART, PADEND), the half-open interval 54..116, although the
device's valid band accepted by set_pad_color runs through PADEND = 117
inclusive: pad 117 is addressable (set_pad_color 117 sends a payload) but
is never cleared, contradicting the docstring "Clears all pad LEDs". -/
theorem init_port_skips_pad_117 :
    117 ∉ init_cleared_pads ∧
    116 ∈ init_cleared_pads ∧
    init_cleared_pads = List.range' 54 63 ∧
    set_pad_color 117 0x000000 = some [63, 0, 0, 0] ∧
    set_pad_color 118 0x000000 = none := by decide

/-- C5: sendkey classifies an action string by testing, in source order,
the prefixes RUN|, TYPE|, SOUND|, CONFIG|, routing the payload after the
matched prefix to run_program, type_text, play_sound, reload_config
respectively, and sends a string matching none of the prefixes to
keyboard.send as a raw key combination.  sendkey is a function into Route,
so every string is routed to exactly one provider. -/
theorem sendkey_prefix_classification (key : String) :
    (pyStartswith key "RUN|" = true → sendkey key = .runProgram (key.drop 4)) ∧
    (pyStartswith key "RUN|" = false → pyStartswith key "TYPE|" = true →
      sendkey key = .typeText (key.drop 5)) ∧
    (pyStartswith key "RUN|" = false → pyStartswith key "TYPE|" = false →
      pyStartswith key "SOUND|" = true → sendkey key = .playSound (key.drop 6)) ∧
    (pyStartswith key "RUN|" = false → pyStartswith key "TYPE|" = false →
      pyStartswith key "SOUND|" = false → pyStartswith key "CONFIG|" = true →
      sendkey key = .reloadConfig (key.drop 7)) ∧
    (pyStartswith key "RUN|" = false → pyStartswith key "TYPE|" = false →
      pyStartswith key "SOUND|" = false → pyStartswith key "CONFIG|" = false →
      sendkey key = .keyboardSend key) := by
  refine ⟨?_, ?_, ?_, ?_, ?_⟩ <;> intros <;> simp_all [sendkey]

/-- C5 witness: the classification theorem applied at one concrete string
per route. -/
theorem sendkey_prefix_classification_witness :
    sendkey "RUN|notepad" = .runProgram "notepad" ∧
    sendkey "TYPE|hi" = .typeText "hi" ∧
    sendkey "SOUND|a.wav" = .playSound "a.wav" ∧
    sendkey "CONFIG|m.json" = .reloadConfig "m.json" ∧
    sendkey "ctrl+s" = .keyboardSend "ctrl+s" :=
  ⟨(sendkey_prefix_classification "RUN|notepad").1 (by decide),
   (sendkey_prefix_classification "TYPE|hi").2.1 (by decide) (by decide),
   (sendkey_prefix_classification "SOUND|a.wav").2.2.1 (by decide) (by decide)
     (by decide),
   (sendkey_prefix_classification "CONFIG|m.json").2.2.2.1 (by decide)
     (by decide) (by decide) (by decide),
   (sendkey_prefix_classification "ctrl+s").2.2.2.2 (by decide) (by decide)
     (by decide) (by decide)⟩

/-- C4: handle_message is a no-op whenever the message is not a note_on or
its velocity is 0, for every control id and every active mapping; a note_on
press with positive velocity invokes the bound action on a mapped id
(printing the stored label) and only logs an unused-control diagnostic on
an unmapped id. -/
theorem handle_message_press_guard (st : MacroRunnerState) (msg : MidiMsg) :
    ((msg.type ≠ "note_on" ∨ msg.velocity = 0) →
      handle_message st msg = .ok .noop) ∧
    (msg.type = "note_on" → 0 < msg.velocity →
      (∀ action label, dictLookup st.control_macros msg.note = some action →
        dictLookup st.control_actions msg.note = some label →
        handle_message st msg = .ok (.invoked msg.note label action)) ∧
      (dictLookup st.control_macros msg.note = none →
        handle_message st msg = .ok (.unused msg.note))) := by
  refine ⟨?_, ?_⟩
  · intro h
    unfold handle_message
    rcases h with h | h
    · simp [h]
    · simp [h]
  · intro ht hv
    refine ⟨?_, ?_⟩
    · intro action label ha hl
      simp [handle_message, ht, hv, ha, hl]
    · intro hn
      simp [handle_message, ht, hv, hn]

/-- C4 witness: the guard theorem applied to concrete messages on the
concrete example state — a zero-velocity press, a non-press, a mapped
press, and an unmapped press. -/
theorem handle_message_press_guard_witness :
    handle_message exampleState ⟨"note_on", 60, 0⟩ = .ok .noop ∧
    handle_message exampleState ⟨"note_off", 60, 100⟩ = .ok .noop ∧
    handle_message exampleState ⟨"note_on", 60, 100⟩ =
      .ok (.invoked 60 "RUN|notepad" "RUN|notepad") ∧
    handle_message exampleState ⟨"note_on", 99, 100⟩ = .ok (.unused 99) :=
  ⟨(handle_message_press_guard exampleState ⟨"note_on", 60, 0⟩).1
      (Or.inr rfl),
   (handle_message_press_guard exampleState ⟨"note_off", 60, 100⟩).1
      (Or.inl (by decide)),
   ((handle_message_press_guard exampleState ⟨"note_on", 60, 100⟩).2
      rfl (by decide)).1 "RUN|notepad" "RUN|notepad" (by decide) (by decide),
   ((handle_message_press_guard exampleState ⟨"note_on", 99, 100⟩).2
      rfl (by decide)).2 (by decide)⟩

/-- C1 counterexample: the original claim fails at the explicit concrete
input path = "".  The empty string is a path to a missing document
(exampleRedirectFS "" = none), yet `if config_path:` is falsy in Python, so
load_configuration redirects the load to the preferred document
default_macros.json; that document exists and is valid, so the reload
succeeds, returns (True, new color map) and replaces the whole active
mapping instead of failing and rolling back. -/
theorem reload_configuration_empty_path_succeeds :
    exampleRedirectFS "" = none ∧
    reload_configuration exampleRedirectFS "" exampleState =
      .ok (true, [(61, some 0xFFFFFF)],
        { midi_config_path := "midi_config.json"
          macros_config_path := ""
          preferred_config_path := "default_macros.json"
          midi_cfg := .obj []
          macro_cfg := .obj [("control_macros", .obj [("61", .str "TYPE|hi")])]
          control_macros := [(61, "TYPE|hi")]
          control_colors := [(61, some 0xFFFFFF)]
          control_actions := [(61, "TYPE|hi")] }) ∧
    ([(61, (some 0xFFFFFF : Option Int))] : List (Int × Option Int)) ≠
      get_color_map exampleState :=
  ⟨rfl, rfl, by decide⟩

/-- C1 amended: from every starting state, reload_configuration with a
NONEMPTY path whose document is missing/unreadable/unparsable (fs gives
none, so load_json yields {}) or falsy (an empty document) returns failure
paired with the pre-reload color map, and the resulting state keeps
control_macros, control_colors, control_actions — hence get_color_map —
exactly as they were before the call.  (The empty path is falsy in Python
and is redirected to the preferred/fallback document, where the reload can
succeed and swap the mapping: see the counterexample.) -/
theorem reload_configuration_rollback (st : MacroRunnerState) (fs : FS)
    (path : String) (hne : path.isEmpty = false)
    (h : ∀ v, fs path = some v → truthy v = false) :
    ∃ st2,
      reload_configuration fs path st = .ok (false, st.control_colors, st2) ∧
      st2.control_macros = st.control_macros ∧
      st2.control_colors = st.control_colors ∧
      st2.control_actions = st.control_actions ∧
      get_color_map st2 = get_color_map st := by
  unfold reload_configuration load_configuration load_json
  cases hfs : fs path with
  | none => simp [hfs, hne, truthy, get_color_map]
  | some v =>
    have htr := h v hfs
    simp [hfs, hne, htr, get_color_map]

/-- C1 witness: the rollback theorem applied to the concrete example state
and a file system where the requested (nonempty) path is missing. -/
theorem reload_configuration_rollback_witness :
    ∃ st2,
      reload_configuration (fun _ => none) "missing.json" exampleState =
        .ok (false, exampleState.control_colors, st2) ∧
      st2.control_macros = exampleState.control_macros ∧
      st2.control_colors = exampleState.control_colors ∧
      st2.control_actions = exampleState.control_actions ∧
      get_color_map st2 = get_color_map exampleState :=
  reload_configuration_rollback exampleState (fun _ => none) "missing.json"
    (by decide) (fun v hv => by simp at hv)

lemma keys_dictInsert {α : Type} (d : List (Int × α)) (k : Int) (v : α) :
    (dictInsert d k v).map Prod.fst =
      if d.any (fun p => p.1 == k) then d.map Prod.fst
      else d.map Prod.fst ++ [k] := by
  unfold dictInsert
  split
  · rw [List.map_map]
    congr 1
    funext p
    simp only [Function.comp]
    split
    · next h => exact (eq_of_beq h).symm
    · rfl
  · simp

lemma mem_keys_dictInsert {α : Type} (d : List (Int × α)) (k n : Int) (v : α) :
    n ∈ (dictInsert d k v).map Prod.fst ↔ n = k ∨ n ∈ d.map Prod.fst := by
  rw [keys_dictInsert]
  split
  · next h =>
    simp only [List.any_eq_true] at h
    obtain ⟨p, hp, he⟩ := h
    have hk : k ∈ d.map Prod.fst :=
      List.mem_map.mpr ⟨p, hp, eq_of_beq he⟩
    constructor
    · exact fun hmem => Or.inr hmem
    · rintro (rfl | hmem)
      · exact hk
      · exact hmem
  · simp [List.mem_append, or_comm]

lemma anyKey_eq {α : Type} (d : List (Int × α)) (k : Int) :
    d.any (fun p => p.1 == k) = (d.map Prod.fst).any (fun x => x == k) := by
  induction d with
  | nil => rfl
  | cons p rest ih => simp [List.any_cons, ih]

lemma insert3_keys_align (acc : BuildResult) (note : Int) (a : String)
    (c : Option Int)
    (h1 : acc.control_macros.map Prod.fst = acc.control_colors.map Prod.fst)
    (h2 : acc.control_macros.map Prod.fst = acc.control_actions.map Prod.fst) :
    (insert3 acc note a c).control_macros.map Prod.fst =
      (insert3 acc note a c).control_colors.map Prod.fst ∧
    (insert3 acc note a c).control_macros.map Prod.fst =
      (insert3 acc note a c).control_actions.map Prod.fst := by
  unfold insert3
  simp only
  rw [keys_dictInsert, keys_dictInsert, keys_dictInsert,
    anyKey_eq acc.control_macros, anyKey_eq acc.control_colors,
    anyKey_eq acc.control_actions, ← h1, ← h2]
  constructor <;> split <;> simp [h1, h2]

lemma build_step_keys_align (dc : Option Int) (acc acc2 : BuildResult)
    (kv : String × JValue) (h : build_step dc acc kv = .ok acc2)
    (h1 : acc.control_macros.map Prod.fst = acc.control_colors.map Prod.fst)
    (h2 : acc.control_macros.map Prod.fst = acc.control_actions.map Prod.fst) :
    acc2.control_macros.map Prod.fst = acc2.control_colors.map Prod.fst ∧
    acc2.control_macros.map Prod.fst = acc2.control_actions.map Prod.fst := by
  unfold build_step at h
  split at h
  · cases h
    exact ⟨h1, h2⟩
  · split at h
    · cases h
      exact insert3_keys_align _ _ _ _ h1 h2
    · split at h
      · split at h
        · split at h
          · cases h
          · cases h
            exact insert3_keys_align _ _ _ _ h1 h2
        · cases h
          exact insert3_keys_align _ _ _ _ h1 h2
      · cases h
        exact ⟨h1, h2⟩
    · cases h
      exact ⟨h1, h2⟩

lemma foldBuild_keys_align (dc : Option Int) :
    ∀ (raw : List (String × JValue)) (acc res : BuildResult),
      foldBuild dc acc raw = .ok res →
      acc.control_macros.map Prod.fst = acc.control_colors.map Prod.fst →
      acc.control_macros.map Prod.fst = acc.control_actions.map Prod.fst →
      res.control_macros.map Prod.fst = res.control_colors.map Prod.fst ∧
      res.control_macros.map Prod.fst = res.control_actions.map Prod.fst := by
  intro raw
  induction raw with
  | nil =>
    intro acc res h h1 h2
    cases h
    exact ⟨h1, h2⟩
  | cons kv rest ih =>
    intro acc res h h1 h2
    unfold foldBuild at h
    split at h
    · cases h
    · next acc2 hstep =>
      obtain ⟨g1, g2⟩ := build_step_keys_align dc acc acc2 kv hstep h1 h2
      exact ih acc2 res h g1 g2

lemma dictLookup_isSome_iff {α : Type} (d : List (Int × α)) (k : Int) :
    (dictLookup d k).isSome = true ↔ k ∈ d.map Prod.fst := by
  unfold dictLookup
  cases hf : List.find? (fun p => p.1 == k) d with
  | none =>
    simp only [Option.map_none', Option.isSome_none, Bool.false_eq_true,
      false_iff]
    intro hmem
    obtain ⟨q, hq, he⟩ := List.mem_map.mp hmem
    have := List.find?_eq_none.mp hf q hq
    simp [he] at this
  | some q =>
    simp only [Option.map_some', Option.isSome_some, true_iff]
    have hq := List.mem_of_find?_eq_some hf
    have hb := List.find?_some hf
    exact List.mem_map.mpr ⟨q, hq, eq_of_beq hb⟩

/-- C10: the three dictionaries built by build_control_macros always carry
exactly the same keys (equal even as ordered key lists), so a controller id
mapped in control_macros always has an action label in control_actions and
a color entry in control_colors — handle_message can read the label without
a KeyError. -/
theorem build_control_macros_key_sets_align (cfg : JValue) (res : BuildResult)
    (h : build_control_macros cfg = .ok res) :
    res.control_macros.map Prod.fst = res.control_colors.map Prod.fst ∧
    res.control_macros.map Prod.fst = res.control_actions.map Prod.fst ∧
    (∀ id : Int, (dictLookup res.control_macros id).isSome = true →
      (dictLookup res.control_actions id).isSome = true ∧
      (dictLookup res.control_colors id).isSome = true) := by
  unfold build_control_macros at h
  split at h
  · cases h
  · split at h
    · cases h
    · next raw hraw =>
      obtain ⟨g1, g2⟩ := foldBuild_keys_align _ raw ⟨[], [], [], []⟩ res h rfl rfl
      refine ⟨g1, g2, ?_⟩
      intro id hid
      rw [dictLookup_isSome_iff] at hid
      constructor
      · rw [dictLookup_isSome_iff, ← g2]
        exact hid
      · rw [dictLookup_isSome_iff, ← g1]
        exact hid

/-- C10 witness: the alignment theorem applied to a concrete document that
exercises both entry styles, a skipped entry and an update of a duplicate
key. -/
theorem build_control_macros_key_sets_align_witness :
    [(60, "f1"), (61, "TYPE|hi")].map Prod.fst =
      ([(60, some (0xFFFFFF : Int)), (61, some 0xFF0000)].map Prod.fst :
        List Int) ∧
    ([(60, "f1"), (61, "TYPE|hi")] : List (Int × String)).map Prod.fst =
      [(60, "f1"), (61, "TYPE|hi")].map Prod.fst ∧
    (∀ id : Int,
      (dictLookup [(60, "f1"), (61, "TYPE|hi")] id).isSome = true →
      (dictLookup [(60, "f1"), (61, "TYPE|hi")] id).isSome = true ∧
      (dictLookup [(60, some (0xFFFFFF : Int)), (61, some 0xFF0000)]
        id).isSome = true) :=
  build_control_macros_key_sets_align
    (.obj [("control_macros", .obj
      [("60", .str "RUN|x"), ("oops", .str "f0"),
       ("61", .obj [("action", .str "TYPE|hi"), ("color", .str "0xFF0000")]),
       (" 60 ", .str "f1")])])
    ⟨[(60, "f1"), (61, "TYPE|hi")],
     [(60, some 0xFFFFFF), (61, some 0xFF0000)],
     [(60, "f1"), (61, "TYPE|hi")], [.invalidNote "oops"]⟩ rfl

lemma foldBuild_keys_char (dc : Option Int) :
    ∀ (raw : List (String × JValue)) (acc : BuildResult),
      raw.all (fun kv => validEntryB kv.2) = true →
      ∃ res, foldBuild dc acc raw = .ok res ∧
        (∀ n : Int, n ∈ res.control_macros.map Prod.fst ↔
          (n ∈ acc.control_macros.map Prod.fst ∨
           ∃ kv ∈ raw, pyIntBase10 kv.1 = some n)) ∧
        (∀ d, d ∈ acc.diags → d ∈ res.diags) ∧
        (∀ kv ∈ raw, pyIntBase10 kv.1 = none →
          Diag.invalidNote kv.1 ∈ res.diags) := by
  intro raw
  induction raw with
  | nil =>
    intro acc _
    exact ⟨acc, rfl, by simp, fun d h => h, by simp⟩
  | cons kv rest ih =>
    intro acc hall
    simp only [List.all_cons, Bool.and_eq_true] at hall
    obtain ⟨hkv, hrest⟩ := hall
    cases hparse : pyIntBase10 kv.1 with
    | none =>
      have hstep : build_step dc acc kv =
          .ok { acc with diags := acc.diags ++ [.invalidNote kv.1] } := by
        unfold build_step
        rw [hparse]
      obtain ⟨res, hfold, hkeys, hmono, hdiag⟩ :=
        ih { acc with diags := acc.diags ++ [.invalidNote kv.1] } hrest
      refine ⟨res, ?_, ?_, ?_, ?_⟩
      · show foldBuild dc acc (kv :: rest) = .ok res
        unfold foldBuild
        rw [hstep]
        exact hfold
      · intro n
        rw [hkeys n]
        constructor
        · rintro (h | ⟨w, hw, hp⟩)
          · exact Or.inl h
          · exact Or.inr ⟨w, List.mem_cons_of_mem _ hw, hp⟩
        · rintro (h | ⟨w, hw, hp⟩)
          · exact Or.inl h
          · rcases List.mem_cons.mp hw with rfl | hw2
            · rw [hparse] at hp
              cases hp
            · exact Or.inr ⟨w, hw2, hp⟩
      · intro d hd
        exact hmono d (List.mem_append_left _ hd)
      · intro kv2 hkv2 hnone
        rcases List.mem_cons.mp hkv2 with rfl | hkv2
        · exact hmono _ (List.mem_append_right _ (List.mem_singleton.mpr rfl))
        · exact hdiag kv2 hkv2 hnone
    | some note =>
      have hstep : ∃ a c, build_step dc acc kv = .ok (insert3 acc note a c) := by
        cases hv : kv.2 with
        | str a =>
          exact ⟨a, dc, by unfold build_step; rw [hparse, hv]⟩
        | obj e =>
          rw [hv] at hkv
          cases hact : jget e "action" with
          | none => simp [validEntryB, hact] at hkv
          | some av =>
            cases av with
            | str a =>
              cases htr : truthy ((jget e "color").getD JValue.null) with
              | false =>
                exact ⟨a, dc, by unfold build_step; rw [hparse, hv]; simp [hact, htr]⟩
              | true =>
                simp only [validEntryB, hact, htr, Bool.not_true, Bool.false_or] at hkv
                cases hpc : parse_color ((jget e "color").getD JValue.null) with
                | error ex => simp [exceptOk, hpc] at hkv
                | ok ci =>
                  exact ⟨a, ci, by
                    unfold build_step; rw [hparse, hv]; simp [hact, htr, hpc]⟩
            | null => simp [validEntryB, hact] at hkv
            | bool b => simp [validEntryB, hact] at hkv
            | int m => simp [validEntryB, hact] at hkv
            | arr xs => simp [validEntryB, hact] at hkv
            | obj o => simp [validEntryB, hact] at hkv
        | null => rw [hv] at hkv; simp [validEntryB] at hkv
        | bool b => rw [hv] at hkv; simp [validEntryB] at hkv
        | int m => rw [hv] at hkv; simp [validEntryB] at hkv
        | arr xs => rw [hv] at hkv; simp [validEntryB] at hkv
      obtain ⟨a, c, hstep⟩ := hstep
      obtain ⟨res, hfold, hkeys, hmono, hdiag⟩ := ih (insert3 acc note a c) hrest
      refine ⟨res, ?_, ?_, ?_, ?_⟩
      · show foldBuild dc acc (kv :: rest) = .ok res
        unfold foldBuild
        rw [hstep]
        exact hfold
      · intro n
        rw [hkeys n]
        simp only [insert3]
        rw [mem_keys_dictInsert]
        constructor
        · rintro ((rfl | h) | ⟨w, hw, hp⟩)
          · exact Or.inr ⟨kv, List.mem_cons_self _ _, hparse⟩
          · exact Or.inl h
          · exact Or.inr ⟨w, List.mem_cons_of_mem _ hw, hp⟩
        · rintro (h | ⟨w, hw, hp⟩)
          · exact Or.inl (Or.inr h)
          · rcases List.mem_cons.mp hw with rfl | hw2
            · rw [hparse] at hp
              exact Or.inl (Or.inl (Option.some_injective _ hp.symm))
            · exact Or.inr ⟨w, hw2, hp⟩
      · intro d hd
        exact hmono d hd
      · intro kv2 hkv2 hnone
        rcases List.mem_cons.mp hkv2 with rfl | hkv2
        · rw [hparse] at hnone; cases hnone
        · exact hdiag kv2 hkv2 hnone

/-- C3: for every valid configuration document (shape-valid entries whose
parsed colors parse — keys unconstrained), build_control_macros raises no
exception and the key set of the returned mapping is exactly the set of
integer values of the syntactically valid integer keys of control_macros;
entries whose key fails to parse are excluded and leave an invalid-note
diagnostic. -/
theorem build_keys_eq_parsed_int_keys (cfg : JValue)
    (raw : List (String × JValue)) (hv : validDocB cfg = true)
    (hr : raw_entries_of cfg = .ok raw) :
    ∃ res, build_control_macros cfg = .ok res ∧
      (∀ n : Int, n ∈ res.control_macros.map Prod.fst ↔
        ∃ kv ∈ raw, pyIntBase10 kv.1 = some n) ∧
      (∀ kv ∈ raw, pyIntBase10 kv.1 = none →
        Diag.invalidNote kv.1 ∈ res.diags) := by
  cases cfg with
  | obj fields =>
    unfold validDocB at hv
    rw [Bool.and_eq_true] at hv
    obtain ⟨hdc, hcm⟩ := hv
    cases hdcv : default_color_of (.obj fields) with
    | error ex => rw [hdcv] at hdc; cases hdc
    | ok dc =>
      have hre := hr
      simp only [raw_entries_of] at hr
      cases hobj : (jget fields "control_macros").getD (.obj []) with
      | obj raw2 =>
        rw [hobj] at hr hcm
        cases hr
        obtain ⟨res, hfold, hkeys, _, hdiag⟩ :=
          foldBuild_keys_char dc raw ⟨[], [], [], []⟩ hcm
        refine ⟨res, ?_, ?_, hdiag⟩
        · unfold build_control_macros
          rw [hdcv, hre]
          exact hfold
        · intro n
          rw [hkeys n]
          simp
      | null => rw [hobj] at hr; cases hr
      | bool b => rw [hobj] at hr; cases hr
      | int m => rw [hobj] at hr; cases hr
      | str s => rw [hobj] at hr; cases hr
      | arr xs => rw [hobj] at hr; cases hr
  | null => cases hv
  | bool b => cases hv
  | int n => cases hv
  | str s => cases hv
  | arr xs => cases hv

/-- C3 witness: the key-set theorem applied to a concrete valid document
with one valid key, one duplicate valid key form and one invalid key. -/
theorem build_keys_eq_parsed_int_keys_witness :
    ∃ res,
      build_control_macros (.obj [("control_macros", .obj
        [("60", .str "f"), ("xx", .str "g"),
         ("61", .obj [("action", .str "h"), ("color", .str "#10")])])]) =
        .ok res ∧
      (∀ n : Int, n ∈ res.control_macros.map Prod.fst ↔
        ∃ kv ∈ [(("60" : String), JValue.str "f"), ("xx", JValue.str "g"),
          ("61", JValue.obj [("action", JValue.str "h"),
            ("color", JValue.str "#10")])], pyIntBase10 kv.1 = some n) ∧
      (∀ kv ∈ [(("60" : String), JValue.str "f"), ("xx", JValue.str "g"),
          ("61", JValue.obj [("action", JValue.str "h"),
            ("color", JValue.str "#10")])], pyIntBase10 kv.1 = none →
        Diag.invalidNote kv.1 ∈ res.diags) :=
  build_keys_eq_parsed_int_keys _ _ rfl rfl

lemma entry_shape_cases (v : JValue) :
    (entryAccepted v = true → objBadAction v = false ∧ nonEntry v = false) ∧
    (objBadAction v = true → entryAccepted v = false ∧ nonEntry v = false) ∧
    (nonEntry v = true → entryAccepted v = false ∧ objBadAction v = false) := by
  cases v with
  | obj e =>
    cases hact : jget e "action" with
    | none => simp [entryAccepted, objBadAction, nonEntry, hact]
    | some av =>
      cases av <;> simp [entryAccepted, objBadAction, nonEntry, hact]
  | str s => simp [entryAccepted, objBadAction, nonEntry]
  | null => simp [entryAccepted, objBadAction, nonEntry]
  | bool b => simp [entryAccepted, objBadAction, nonEntry]
  | int m => simp [entryAccepted, objBadAction, nonEntry]
  | arr xs => simp [entryAccepted, objBadAction, nonEntry]

lemma foldBuild_colors_keys_diags (dc : Option Int) :
    ∀ (raw : List (String × JValue)) (acc : BuildResult),
      raw.all (fun kv => entryColorOkB kv.2) = true →
      ∃ res, foldBuild dc acc raw = .ok res ∧
        (∀ n : Int, n ∈ res.control_macros.map Prod.fst ↔
          (n ∈ acc.control_macros.map Prod.fst ∨
           ∃ kv ∈ raw, pyIntBase10 kv.1 = some n ∧ entryAccepted kv.2 = true)) ∧
        (∀ d, d ∈ acc.diags → d ∈ res.diags) ∧
        (∀ kv ∈ raw, pyIntBase10 kv.1 = none →
          Diag.invalidNote kv.1 ∈ res.diags) ∧
        (∀ kv ∈ raw, ∀ note : Int, pyIntBase10 kv.1 = some note →
          objBadAction kv.2 = true → Diag.invalidAction kv.1 ∈ res.diags) ∧
        (∀ kv ∈ raw, ∀ note : Int, pyIntBase10 kv.1 = some note →
          nonEntry kv.2 = true → Diag.invalidMapping kv.1 ∈ res.diags) := by
  intro raw
  induction raw with
  | nil =>
    intro acc _
    exact ⟨acc, rfl, by simp, fun d h => h, by simp, by simp, by simp⟩
  | cons kv rest ih =>
    intro acc hall
    simp only [List.all_cons, Bool.and_eq_true] at hall
    obtain ⟨hkv, hrest⟩ := hall
    cases hparse : pyIntBase10 kv.1 with
    | none =>
      have hstep : build_step dc acc kv =
          .ok { acc with diags := acc.diags ++ [.invalidNote kv.1] } := by
        unfold build_step
        rw [hparse]
      obtain ⟨res, hfold, hkeys, hmono, hdN, hdA, hdM⟩ :=
        ih { acc with diags := acc.diags ++ [.invalidNote kv.1] } hrest
      refine ⟨res, ?_, ?_, ?_, ?_, ?_, ?_⟩
      · show foldBuild dc acc (kv :: rest) = .ok res
        unfold foldBuild
        rw [hstep]
        exact hfold
      · intro n
        rw [hkeys n]
        constructor
        · rintro (h | ⟨w, hw, hp⟩)
          · exact Or.inl h
          · exact Or.inr ⟨w, List.mem_cons_of_mem _ hw, hp⟩
        · rintro (h | ⟨w, hw, hp⟩)
          · exact Or.inl h
          · rcases List.mem_cons.mp hw with rfl | hw2
            · rw [hparse] at hp
              cases hp.1
            · exact Or.inr ⟨w, hw2, hp⟩
      · intro d hd
        exact hmono d (List.mem_append_left _ hd)
      · intro kv2 hkv2 hnone
        rcases List.mem_cons.mp hkv2 with rfl | hkv2
        · exact hmono _ (List.mem_append_right _ (List.mem_singleton.mpr rfl))
        · exact hdN kv2 hkv2 hnone
      · intro kv2 hkv2 note2 hsome hbad
        rcases List.mem_cons.mp hkv2 with rfl | hkv2
        · rw [hparse] at hsome
          cases hsome
        · exact hdA kv2 hkv2 note2 hsome hbad
      · intro kv2 hkv2 note2 hsome hnon
        rcases List.mem_cons.mp hkv2 with rfl | hkv2
        · rw [hparse] at hsome
          cases hsome
        · exact hdM kv2 hkv2 note2 hsome hnon
    | some note =>
      have hstep :
          (∃ a c, build_step dc acc kv = .ok (insert3 acc note a c) ∧
            entryAccepted kv.2 = true) ∨
          (build_step dc acc kv =
              .ok { acc with diags := acc.diags ++ [.invalidAction kv.1] } ∧
            objBadAction kv.2 = true) ∨
          (build_step dc acc kv =
              .ok { acc with diags := acc.diags ++ [.invalidMapping kv.1] } ∧
            nonEntry kv.2 = true) := by
        cases hv : kv.2 with
        | str a =>
          exact Or.inl ⟨a, dc, by unfold build_step; rw [hparse, hv], rfl⟩
        | null =>
          exact Or.inr (Or.inr ⟨by unfold build_step; rw [hparse, hv], rfl⟩)
        | bool b =>
          exact Or.inr (Or.inr ⟨by unfold build_step; rw [hparse, hv], rfl⟩)
        | int m =>
          exact Or.inr (Or.inr ⟨by unfold build_step; rw [hparse, hv], rfl⟩)
        | arr xs =>
          exact Or.inr (Or.inr ⟨by unfold build_step; rw [hparse, hv], rfl⟩)
        | obj e =>
          rw [hv] at hkv
          cases hact : jget e "action" with
          | none =>
            refine Or.inr (Or.inl ⟨?_, ?_⟩)
            · unfold build_step
              rw [hparse, hv]
              simp [hact]
            · simp [objBadAction, hact]
          | some av =>
            cases av with
            | str a =>
              cases htr : truthy ((jget e "color").getD JValue.null) with
              | false =>
                refine Or.inl ⟨a, dc, ?_, ?_⟩
                · unfold build_step
                  rw [hparse, hv]
                  simp [hact, htr]
                · simp [entryAccepted, hact]
              | true =>
                simp only [entryColorOkB, hact, htr, Bool.not_true,
                  Bool.false_or] at hkv
                cases hpc : parse_color ((jget e "color").getD JValue.null) with
                | error ex => simp [exceptOk, hpc] at hkv
                | ok ci =>
                  refine Or.inl ⟨a, ci, ?_, ?_⟩
                  · unfold build_step
                    rw [hparse, hv]
                    simp [hact, htr, hpc]
                  · simp [entryAccepted, hact]
            | null =>
              refine Or.inr (Or.inl ⟨?_, ?_⟩)
              · unfold build_step
                rw [hparse, hv]
                simp [hact]
              · simp [objBadAction, hact]
            | bool b2 =>
              refine Or.inr (Or.inl ⟨?_, ?_⟩)
              · unfold build_step
                rw [hparse, hv]
                simp [hact]
              · simp [objBadAction, hact]
            | int m2 =>
              refine Or.inr (Or.inl ⟨?_, ?_⟩)
              · unfold build_step
                rw [hparse, hv]
                simp [hact]
              · simp [objBadAction, hact]
            | arr ys =>
              refine Or.inr (Or.inl ⟨?_, ?_⟩)
              · unfold build_step
                rw [hparse, hv]
                simp [hact]
              · simp [objBadAction, hact]
            | obj o2 =>
              refine Or.inr (Or.inl ⟨?_, ?_⟩)
              · unfold build_step
                rw [hparse, hv]
                simp [hact]
              · simp [objBadAction, hact]
      rcases hstep with ⟨a, c, hstep, hacc⟩ | ⟨hstep, hbadA⟩ | ⟨hstep, hnonE⟩
      · obtain ⟨res, hfold, hkeys, hmono, hdN, hdA, hdM⟩ :=
          ih (insert3 acc note a c) hrest
        obtain ⟨hnoBad, hnoNon⟩ := (entry_shape_cases kv.2).1 hacc
        refine ⟨res, ?_, ?_, ?_, ?_, ?_, ?_⟩
        · show foldBuild dc acc (kv :: rest) = .ok res
          unfold foldBuild
          rw [hstep]
          exact hfold
        · intro n
          rw [hkeys n]
          simp only [insert3]
          rw [mem_keys_dictInsert]
          constructor
          · rintro ((rfl | h) | ⟨w, hw, hp⟩)
            · exact Or.inr ⟨kv, List.mem_cons_self _ _, hparse, hacc⟩
            · exact Or.inl h
            · exact Or.inr ⟨w, List.mem_cons_of_mem _ hw, hp⟩
          · rintro (h | ⟨w, hw, hp⟩)
            · exact Or.inl (Or.inr h)
            · rcases List.mem_cons.mp hw with rfl | hw2
              · rw [hparse] at hp
                exact Or.inl (Or.inl (Option.some_injective _ hp.1.symm))
              · exact Or.inr ⟨w, hw2, hp⟩
        · intro d hd
          exact hmono d hd
        · intro kv2 hkv2 hnone
          rcases List.mem_cons.mp hkv2 with rfl | hkv2
          · rw [hparse] at hnone
            cases hnone
          · exact hdN kv2 hkv2 hnone
        · intro kv2 hkv2 note2 hsome hbad
          rcases List.mem_cons.mp hkv2 with rfl | hkv2
          · rw [hnoBad] at hbad
            cases hbad
          · exact hdA kv2 hkv2 note2 hsome hbad
        · intro kv2 hkv2 note2 hsome hnon
          rcases List.mem_cons.mp hkv2 with rfl | hkv2
          · rw [hnoNon] at hnon
            cases hnon
          · exact hdM kv2 hkv2 note2 hsome hnon
      · obtain ⟨res, hfold, hkeys, hmono, hdN, hdA, hdM⟩ :=
          ih { acc with diags := acc.diags ++ [.invalidAction kv.1] } hrest
        obtain ⟨hnoAcc, hnoNon⟩ := (entry_shape_cases kv.2).2.1 hbadA
        refine ⟨res, ?_, ?_, ?_, ?_, ?_, ?_⟩
        · show foldBuild dc acc (kv :: rest) = .ok res
          unfold foldBuild
          rw [hstep]
          exact hfold
        · intro n
          rw [hkeys n]
          constructor
          · rintro (h | ⟨w, hw, hp⟩)
            · exact Or.inl h
            · exact Or.inr ⟨w, List.mem_cons_of_mem _ hw, hp⟩
          · rintro (h | ⟨w, hw, hp⟩)
            · exact Or.inl h
            · rcases List.mem_cons.mp hw with rfl | hw2
              · rw [hnoAcc] at hp
                cases hp.2
              · exact Or.inr ⟨w, hw2, hp⟩
        · intro d hd
          exact hmono d (List.mem_append_left _ hd)
        · intro kv2 hkv2 hnone
          rcases List.mem_cons.mp hkv2 with rfl | hkv2
          · rw [hparse] at hnone
            cases hnone
          · exact hdN kv2 hkv2 hnone
        · intro kv2 hkv2 note2 hsome hbad
          rcases List.mem_cons.mp hkv2 with rfl | hkv2
          · exact hmono _ (List.mem_append_right _ (List.mem_singleton.mpr rfl))
          · exact hdA kv2 hkv2 note2 hsome hbad
        · intro kv2 hkv2 note2 hsome hnon
          rcases List.mem_cons.mp hkv2 with rfl | hkv2
          · rw [hnoNon] at hnon
            cases hnon
          · exact hdM kv2 hkv2 note2 hsome hnon
      · obtain ⟨res, hfold, hkeys, hmono, hdN, hdA, hdM⟩ :=
          ih { acc with diags := acc.diags ++ [.invalidMapping kv.1] } hrest
        obtain ⟨hnoAcc, hnoBad⟩ := (entry_shape_cases kv.2).2.2 hnonE
        refine ⟨res, ?_, ?_, ?_, ?_, ?_, ?_⟩
        · show foldBuild dc acc (kv :: rest) = .ok res
          unfold foldBuild
          rw [hstep]
          exact hfold
        · intro n
          rw [hkeys n]
          constructor
          · rintro (h | ⟨w, hw, hp⟩)
            · exact Or.inl h
            · exact Or.inr ⟨w, List.mem_cons_of_mem _ hw, hp⟩
          · rintro (h | ⟨w, hw, hp⟩)
            · exact Or.inl h
            · rcases List.mem_cons.mp hw with rfl | hw2
              · rw [hnoAcc] at hp
                cases hp.2
              · exact Or.inr ⟨w, hw2, hp⟩
        · intro d hd
          exact hmono d (List.mem_append_left _ hd)
        · intro kv2 hkv2 hnone
          rcases List.mem_cons.mp hkv2 with rfl | hkv2
          · rw [hparse] at hnone
            cases hnone
          · exact hdN kv2 hkv2 hnone
        · intro kv2 hkv2 note2 hsome hbad
          rcases List.mem_cons.mp hkv2 with rfl | hkv2
          · rw [hnoBad] at hbad
            cases hbad
          · exact hdA kv2 hkv2 note2 hsome hbad
        · intro kv2 hkv2 note2 hsome hnon
          rcases List.mem_cons.mp hkv2 with rfl | hkv2
          · exact hmono _ (List.mem_append_right _ (List.mem_singleton.mpr rfl))
          · exact hdM kv2 hkv2 note2 hsome hnon

/-- C2 counterexample: build_control_macros does raise.  An unparsable
default_color string raises ValueError (instead of resolving to opaque
white), so does an unparsable truthy per-entry color string, and a
control_macros field holding a non-dict raises AttributeError from
raw.items(). -/
theorem build_control_macros_raises_on_unparsable_color :
    build_control_macros (.obj [("default_color", .str "oops")]) =
      .error .valueError ∧
    build_control_macros (.obj [("control_macros", .obj
      [("60", .obj [("action", .str "a"), ("color", .str "zzz")])])]) =
      .error .valueError ∧
    build_control_macros (.obj [("control_macros", .str "nope")]) =
      .error .attributeError := ⟨rfl, rfl, rfl⟩

/-- C2 amended: build_control_macros returns normally for every document
whose actually-parsed color strings parse (default_color resolves, the
control_macros field when present is a dict, and every truthy color of a
well-actioned object entry parses); every malformed part degrades to a
skipped entry plus a printed diagnostic — unparsable keys leave an
invalid-note diagnostic, object entries with a missing or non-string
action an invalid-action diagnostic, entries that are neither strings nor
objects an invalid-mapping diagnostic, and only accepted entries reach the
result's key set — and an absent default_color resolves to opaque white
0xFFFFFF.  An unparsable color string, however, raises ValueError (see the
counterexample). -/
theorem build_control_macros_total_when_colors_parse (cfg : JValue)
    (h : colorsParsableB cfg = true) :
    (∃ raw res, raw_entries_of cfg = .ok raw ∧
      build_control_macros cfg = .ok res ∧
      (∀ n : Int, n ∈ res.control_macros.map Prod.fst ↔
        ∃ kv ∈ raw, pyIntBase10 kv.1 = some n ∧ entryAccepted kv.2 = true) ∧
      (∀ kv ∈ raw, pyIntBase10 kv.1 = none →
        Diag.invalidNote kv.1 ∈ res.diags) ∧
      (∀ kv ∈ raw, ∀ note : Int, pyIntBase10 kv.1 = some note →
        objBadAction kv.2 = true → Diag.invalidAction kv.1 ∈ res.diags) ∧
      (∀ kv ∈ raw, ∀ note : Int, pyIntBase10 kv.1 = some note →
        nonEntry kv.2 = true → Diag.invalidMapping kv.1 ∈ res.diags)) ∧
    (∀ fields, cfg = .obj fields → jget fields "default_color" = none →
      default_color_of cfg = .ok (some 0xFFFFFF)) := by
  constructor
  · cases cfg with
    | obj fields =>
      unfold colorsParsableB at h
      rw [Bool.and_eq_true] at h
      obtain ⟨hdc, hcm⟩ := h
      cases hdcv : default_color_of (.obj fields) with
      | error ex => rw [hdcv] at hdc; cases hdc
      | ok dc =>
        cases hobj : (jget fields "control_macros").getD (.obj []) with
        | obj raw =>
          rw [hobj] at hcm
          have hre : raw_entries_of (.obj fields) = .ok raw := by
            simp only [raw_entries_of]
            rw [hobj]
          obtain ⟨res, hfold, hkeys, _, hdN, hdA, hdM⟩ :=
            foldBuild_colors_keys_diags dc raw ⟨[], [], [], []⟩
              (by simpa using hcm)
          refine ⟨raw, res, hre, ?_, ?_, hdN, hdA, hdM⟩
          · unfold build_control_macros
            rw [hdcv, hre]
            exact hfold
          · intro n
            rw [hkeys n]
            simp
        | null => rw [hobj] at hcm; simp at hcm
        | bool b => rw [hobj] at hcm; simp at hcm
        | int m => rw [hobj] at hcm; simp at hcm
        | str s => rw [hobj] at hcm; simp at hcm
        | arr xs => rw [hobj] at hcm; simp at hcm
    | null => cases h
    | bool b => cases h
    | int n => cases h
    | str s => cases h
    | arr xs => cases h
  · intro fields hcfg hnone
    subst hcfg
    simp only [default_color_of, hnone, Option.getD_none]
    rfl

/-- C2 witness: the amended totality theorem applied to the concrete
exampleMalformedDoc, which exercises an absent default_color, a skipped
invalid key, a skipped non-entry, a skipped invalid action, a parsed entry
color and an accepted bare string. -/
theorem build_control_macros_total_when_colors_parse_witness :
    (∃ raw res, raw_entries_of exampleMalformedDoc = .ok raw ∧
      build_control_macros exampleMalformedDoc = .ok res ∧
      (∀ n : Int, n ∈ res.control_macros.map Prod.fst ↔
        ∃ kv ∈ raw, pyIntBase10 kv.1 = some n ∧ entryAccepted kv.2 = true) ∧
      (∀ kv ∈ raw, pyIntBase10 kv.1 = none →
        Diag.invalidNote kv.1 ∈ res.diags) ∧
      (∀ kv ∈ raw, ∀ note : Int, pyIntBase10 kv.1 = some note →
        objBadAction kv.2 = true → Diag.invalidAction kv.1 ∈ res.diags) ∧
      (∀ kv ∈ raw, ∀ note : Int, pyIntBase10 kv.1 = some note →
        nonEntry kv.2 = true → Diag.invalidMapping kv.1 ∈ res.diags)) ∧
    (∀ fields, exampleMalformedDoc = .obj fields →
      jget fields "default_color" = none →
      default_color_of exampleMalformedDoc = .ok (some 0xFFFFFF)) :=
  build_control_macros_total_when_colors_parse exampleMalformedDoc rfl

/-- C6: a configuration entry in object form whose color field is present
but falsy (the integer 0, the empty string, null, false, [], {}) resolves
to the document default color computed by default_color_of — the falsy
value is never kept as color 0 and never becomes "no color" on its own
(the built color differs from the document default only if the default
itself is 0 or None).  Stated for the document holding that entry as its
control_macros mapping. -/
theorem falsy_color_inherits_default (fields e : List (String × JValue))
    (k action : String) (note : Int) (dc : Option Int) (cv : JValue)
    (hcm : jget fields "control_macros" = some (.obj [(k, .obj e)]))
    (ha : jget e "action" = some (.str action))
    (hcv : jget e "color" = some cv) (hfalsy : truthy cv = false)
    (hk : pyIntBase10 k = some note)
    (hdc : default_color_of (.obj fields) = .ok dc) :
    build_control_macros (.obj fields) =
      .ok ⟨[(note, action)], [(note, dc)], [(note, action)], []⟩ := by
  have hre : raw_entries_of (.obj fields) = .ok [(k, .obj e)] := by
    simp only [raw_entries_of]
    rw [hcm]
    rfl
  unfold build_control_macros
  rw [hdc, hre]
  show foldBuild dc ⟨[], [], [], []⟩ [(k, .obj e)] = _
  unfold foldBuild build_step
  rw [hk]
  simp only [ha, hcv, Option.getD_some, hfalsy]
  simp [foldBuild, insert3, dictInsert]

/-- C6 witness: the inheritance theorem applied to a concrete document with
default_color #112233 and an entry whose color is the explicit falsy 0: the
built color is 0x112233, not 0 and not None. -/
theorem falsy_color_inherits_default_witness :
    build_control_macros (.obj [("default_color", .str "#112233"),
      ("control_macros", .obj [("62",
        .obj [("action", .str "a"), ("color", .int 0)])])]) =
      .ok ⟨[(62, "a")], [(62, some 0x112233)], [(62, "a")], []⟩ :=
  falsy_color_inherits_default _ _ "62" "a" 62 (some 0x112233) (.int 0)
    rfl rfl rfl rfl rfl rfl
